import Mathlib

/- Verification of the parsemon parser-combinator engine.

   The definitions below are a shallow embedding of the library's core
   modules: `parsemon/stream.py` (the two immutable stream
   representations) and `parsemon/internals.py` (the CPS parser monad and
   its primitive parsers).  The trampoline of `parsemon/trampoline.py` is
   semantically the identity on results (`with_trampoline` just keeps
   applying deferred `Call`s until a `Result` appears), so `Call(f, x, k)`
   is embedded as the direct application `f x k` and `Result(x)` as `x`.
   Python integers are embedded as `Int` where the source can go negative
   (`StringStream.__len__`), `Nat` elsewhere; fallible operations (Python
   code that can raise `IndexError`) return `Except`. -/

namespace Parsemon

/-- Embeds `StringStream` from stream.py: the whole document (`content`,
    a Python string embedded as `List Char`), a cursor `position`, and the
    stored document `length`. -/
structure StringStream where
  content : List Char
  position : Nat
  length : Nat
  deriving DecidableEq

namespace StringStream

/-- Embeds `StringStream.from_string`: position 0, stored length is the
    document length. -/
def from_string (s : String) : StringStream :=
  { content := s.data, position := 0, length := s.length }

/-- Embeds `StringStream.__len__`, i.e. `self.length - self.position`.
    Python subtraction can go negative, hence `Int`. -/
def len (s : StringStream) : Int :=
  (s.length : Int) - (s.position : Int)

/-- Embeds `StringStream.to_string`: `self.content[self.position:]`. -/
def to_string (s : StringStream) : String :=
  String.mk (s.content.drop s.position)

/-- Embeds `StringStream.read`.  The guard `if self:` is Python
    truthiness of the stream, i.e. `__len__() != 0`.  On the non-empty
    branch the source returns `self.content[self.position]` (in bounds for
    every stream reachable from `from_string`, embedded as `List.get?`)
    and a copy of the stream with `position` advanced by one; on the empty
    branch it returns the end marker and the receiver itself. -/
def read (s : StringStream) : Option Char × StringStream :=
  if s.len ≠ 0 then
    (s.content.get? s.position, { s with position := s.position + 1 })
  else
    (none, s)

/-- Embeds `StringStream.next`.  The source tests `if self.content:` —
    truthiness of the whole document, not of the remaining length — and
    then evaluates `self.content[self.position]`, which raises
    `IndexError` when the position is past the end; the raise is embedded
    as `Except.error`. -/
def next (s : StringStream) : Except Unit (Option Char) :=
  if s.content.isEmpty then
    Except.ok none
  else
    match s.content.get? s.position with
    | some c => Except.ok (some c)
    | none => Except.error ()

end StringStream

/-- Embeds `CharacterStream` from stream.py.  Modelled from the spec:
    its `content` field is a `Stack` from the package's deque module,
    which is not among the provided sources; per the spec (§4.2, §9) it
    is a persistent singly-linked structure, embedded as `List Char` with
    `push` = cons, `top` = `head?` (`deque_empty` = `none`), `pop` =
    `tail`, `empty` = `isEmpty`.  The stream methods themselves follow
    stream.py. -/
structure CharacterStream where
  content : List Char
  length : Nat
  deriving DecidableEq

namespace CharacterStream

/-- Embeds `CharacterStream.from_string`: the document pushed onto an
    empty stack in reverse order, so the first character is on top. -/
def from_string (s : String) : CharacterStream :=
  { content := s.data.reverse.foldl (fun stack c => c :: stack) []
    length := s.length }

/-- Embeds `CharacterStream.next`: `top()` of the stack, with the
    `deque_empty` sentinel translated to the end marker `none`. -/
def next (s : CharacterStream) : Option Char :=
  s.content.head?

/-- Embeds `CharacterStream.read`: the next element together with a copy
    whose stack is popped; `length` is decremented only when the stack was
    non-empty before the pop. -/
def read (s : CharacterStream) : Option Char × CharacterStream :=
  ( s.next
  , { s with
      content := s.content.tail
      length := if s.content.isEmpty then s.length else s.length - 1 } )

end CharacterStream

/-- Embeds the result objects of internals.py as one sum: `Success`
    (classes carry `value` and the remaining `stream`), `Failure`
    (`message` and the `stream` at the failure point) and `Failures`
    (a list of `Failure`s, each a message/stream pair). -/
inductive ParseResult (α : Type) where
  | success (value : α) (stream : StringStream)
  | failure (message : String) (stream : StringStream)
  | failures (failureList : List (String × StringStream))
  deriving DecidableEq

namespace ParseResult

/-- Embeds the `is_failure` methods: `False` on `Success`, `True` on
    `Failure` and `Failures`. -/
def isFailure : ParseResult α → Bool
  | success _ _ => false
  | failure _ _ => true
  | failures _ => true

/-- Embeds the `map_value` methods: `Success.map_value` applies the
    mapping to `value`; `Failure.map_value` returns `self` unchanged, so
    `Failures.map_value` (which maps `map_value` over its elements) is
    also the identity. -/
def mapValue (f : α → β) : ParseResult α → ParseResult β
  | success v s => success (f v) s
  | failure m s => failure m s
  | failures fs => failures fs

/-- Embeds the `map_stream` methods: the mapping is applied to the
    stream of a `Success` or `Failure`, and to every recorded stream of a
    `Failures`. -/
def mapStream (f : StringStream → StringStream) : ParseResult α → ParseResult α
  | success v s => success v (f s)
  | failure m s => failure m (f s)
  | failures fs => failures (fs.map fun pr => (pr.1, f pr.2))

/-- Embeds `last_stream`: a `Failure` yields its own stream, a
    `Failures` the stream of its last element (`None` when empty).
    `Success` has no `last_stream` method — calling it would raise
    `AttributeError` — but `__or__` only calls it on failures, so the
    `none` default is unreachable there. -/
def lastStream : ParseResult α → Option StringStream
  | success _ _ => none
  | failure _ s => some s
  | failures fs => (fs.getLast?).map Prod.snd

/-- Embeds `Failure.__add__` and `Failures.__add__`, which concatenate
    the underlying failure lists; `__or__` only adds two failure results,
    so the catch-all for a `Success` operand is unreachable. -/
def combine : ParseResult α → ParseResult α → ParseResult α
  | failure m s, failure m' s' => failures [(m, s), (m', s')]
  | failure m s, failures fs => failures ((m, s) :: fs)
  | failures fs, failure m s => failures (fs ++ [(m, s)])
  | failures fs, failures fs' => failures (fs ++ fs')
  | r, _ => r

end ParseResult

/-- Embeds the `Parser` class of internals.py: a record holding one
    `function` from a stream and a continuation to a final answer.  The
    answer type `ρ` stands for whatever the continuation ultimately
    produces (Python is untyped here); `Parser.run` instantiates it with
    `ParseResult α`. -/
structure Parser (α ρ : Type) where
  function : StringStream → (ParseResult α → ρ) → ρ

/-- Embeds `Parser.bind`: run `self`, and in the continuation pass a
    failure straight to `cont`, otherwise obtain the next parser from
    `binding` and run it on the remaining stream with the same `cont`. -/
def Parser.bind (self : Parser α ρ) (binding : α → Parser β ρ) : Parser β ρ :=
  Parser.mk fun stream cont =>
    self.function stream fun firstResult =>
      match firstResult with
      | ParseResult.success v s' => (binding v).function s' cont
      | ParseResult.failure m s' => cont (ParseResult.failure m s')
      | ParseResult.failures fs => cont (ParseResult.failures fs)

/-- Embeds `Parser.__or__`: run `self`; if it failed and the failure's
    `last_stream` has the same remaining length as the stream at entry,
    run `other` from that entry stream and, should `other` also fail,
    pass the combined (`+`) failures to `cont`; in every other case pass
    `self`'s result to `cont` unchanged.  (Python would raise on
    `len(None)`; that case is unreachable and passes the result on.) -/
def Parser.orElse (self other : Parser α ρ) : Parser α ρ :=
  Parser.mk fun stream cont =>
    self.function stream fun resultOfSelf =>
      if resultOfSelf.isFailure then
        match resultOfSelf.lastStream with
        | some s' =>
          if s'.len = stream.len then
            other.function stream fun resultOfOther =>
              if resultOfOther.isFailure then
                cont (resultOfSelf.combine resultOfOther)
              else
                cont resultOfOther
          else cont resultOfSelf
        | none => cont resultOfSelf
      else cont resultOfSelf

/-- Embeds `Parser.run` with the default `StringStream` implementation:
    the parser's function applied to `from_string` of the input and the
    final continuation (`with_trampoline` and the `Result` wrapper cancel
    out to the identity). -/
def Parser.run (p : Parser α (ParseResult α)) (input : String) : ParseResult α :=
  p.function (StringStream.from_string input) (fun x => x)

/-- Embeds `unit`: always succeed with `value`, consuming nothing. -/
def unit (value : α) : Parser α ρ :=
  Parser.mk fun stream cont => cont (ParseResult.success value stream)

/-- Embeds `fail`: always fail with `msg` at the current stream. -/
def fail (msg : String) : Parser α ρ :=
  Parser.mk fun stream cont => cont (ParseResult.failure msg stream)

/-- Embeds `try_parser` (renamed: Lean identifiers here avoid that
    exact spelling): run `parser`; a failing result has every recorded
    stream rewound to the stream at entry, a success passes through. -/
def tryParser (p : Parser α ρ) : Parser α ρ :=
  Parser.mk fun stream cont =>
    p.function stream fun result =>
      if result.isFailure then
        cont (result.mapStream fun _ => stream)
      else
        cont result

/-- Embeds `fmap`: run `parser` and apply `map_value mapping` to its
    result before handing it to the continuation. -/
def fmap (mapping : α → β) (p : Parser α ρ) : Parser β ρ :=
  Parser.mk fun stream cont =>
    p.function stream fun parsingResult =>
      cont (parsingResult.mapValue mapping)

/-- Embeds the loop of `character(n)`: `n` iterations; when the stream
    is exhausted (`if not stream:`, i.e. remaining length 0) the loop
    aborts with the stream at that point (`Except.error`), otherwise one
    element is read and appended.  Python appends the raw result of
    `read()`, which under the exhaustion guard is always an actual
    character for streams reachable from `from_string`; the `none` case
    (an out-of-bounds read that would raise in Python) is unreachable and
    aborts with the post-read stream. -/
def characterRead : Nat → StringStream → List Char → Except StringStream (List Char × StringStream)
  | 0, s, acc => Except.ok (acc, s)
  | Nat.succ k, s, acc =>
    if s.len = 0 then
      Except.error s
    else
      match s.read with
      | (some c, s') => characterRead k s' (acc ++ [c])
      | (none, s') => Except.error s'

/-- Embeds `character(n)`: the collected characters joined into a string
    on success, or the failure `'Expected character but found end of
    string'` carrying the stream where exhaustion was detected. -/
def character (n : Nat) : Parser String ρ :=
  Parser.mk fun stream cont =>
    match characterRead n stream [] with
    | Except.ok (chars, s') =>
      cont (ParseResult.success (String.mk chars) s')
    | Except.error s' =>
      cont (ParseResult.failure "Expected character but found end of string" s')

/-- Embeds the loop of `literal(expected)`: walk the expected characters;
    on end of input fail with the backquoted end-of-string message at
    `old_stream` (the stream before the failed read); on a mismatch fail
    at `old_stream` with a message naming the expected string and the
    matched characters plus the offending one; otherwise append the
    expected character and continue. -/
def literalLoop (full : String) : List Char → StringStream → List Char → ParseResult String
  | [], s, acc => ParseResult.success (String.mk acc) s
  | e :: rest, s, acc =>
    match s.read with
    | (none, _) =>
      ParseResult.failure
        ("Expected `" ++ full ++ "` but found end of string") s
    | (some c, s') =>
      if e = c then
        literalLoop full rest s' (acc ++ [e])
      else
        ParseResult.failure
          ("Expected " ++ full ++ " but found " ++ String.mk (acc ++ [c]) ++ ".") s

/-- Embeds `literal(expected)`: the loop above over the characters of
    `expected`, started with an empty accumulator. -/
def literal (expected : String) : Parser String ρ :=
  Parser.mk fun stream cont =>
    cont (literalLoop expected expected.data stream [])

/-- Modelled from the spec: the `choice` combinator exported by the
    package (the tests import it from `parsemon`) lives in a module that
    is not among the provided sources.  Per §4.3, `choice(a, b)` saves the
    stream at the choice point and runs `a`; if `a` succeeds the choice
    point is discarded, and if `a` fails, `b` is resumed from the saved
    stream, with `a`'s failure messages kept in front of `b`'s for later
    aggregation should `b` fail too. -/
def choice (a b : Parser α ρ) : Parser α ρ :=
  Parser.mk fun stream cont =>
    a.function stream fun resultOfA =>
      if resultOfA.isFailure then
        b.function stream fun resultOfB =>
          if resultOfB.isFailure then
            cont (resultOfA.combine resultOfB)
          else
            cont resultOfB
      else
        cont resultOfA

/-- Modelled from the spec: the rendering of an aggregated failure (done
    by the public `run_parser` entry point and its error type, which are
    not among the provided sources) joins the collected branch messages,
    in order, with the separator `" OR "` (§4.4, §6). -/
def renderFailureMessages (fs : List (String × StringStream)) : String :=
  String.intercalate " OR " (fs.map Prod.fst)

/-- Reading a stream whose cursor is strictly inside the stored length
    yields the element at the cursor and advances the cursor. -/
theorem StringStream.read_of_lt (c : List Char) (pos L : Nat) (h : pos < L) :
    StringStream.read ⟨c, pos, L⟩ = (c.get? pos, ⟨c, pos + 1, L⟩) := by
  have hne : (⟨c, pos, L⟩ : StringStream).len ≠ 0 := by
    simp only [StringStream.len]
    omega
  simp [StringStream.read, hne]

/-- Reading a stream whose cursor equals the stored length yields the
    end marker and the receiver unchanged. -/
theorem StringStream.read_exhausted (c : List Char) (L : Nat) :
    StringStream.read ⟨c, L, L⟩ = (none, ⟨c, L, L⟩) := by
  simp [StringStream.read, StringStream.len]

/-- Running `literalLoop` over an expected list that starts with a block
    of characters actually present at the cursor consumes exactly that
    block, appending it to the accumulator. -/
theorem literalLoop_matched (full : String) :
    ∀ (matched restExp restList acc cs : List Char) (pos : Nat),
      cs.drop pos = matched ++ restList →
      literalLoop full (matched ++ restExp) ⟨cs, pos, cs.length⟩ acc =
        literalLoop full restExp ⟨cs, pos + matched.length, cs.length⟩ (acc ++ matched) := by
  intro matched
  induction matched with
  | nil =>
    intro restExp restList acc cs pos _
    simp
  | cons m ms ih =>
    intro restExp restList acc cs pos h
    have hlt : pos < cs.length := by
      by_contra hge
      push_neg at hge
      rw [List.drop_eq_nil_of_le hge] at h
      simp at h
    have hdrop : cs.drop pos = cs[pos] :: cs.drop (pos + 1) := List.drop_eq_getElem_cons hlt
    rw [hdrop] at h
    have hm : cs[pos] = m := (List.cons.injEq _ _ _ _ ▸ h).1
    have hrest : cs.drop (pos + 1) = ms ++ restList := (List.cons.injEq _ _ _ _ ▸ h).2
    have hget : cs.get? pos = some m := by
      rw [List.get?_eq_getElem?, List.getElem?_eq_getElem hlt, hm]
    show literalLoop full (m :: (ms ++ restExp)) ⟨cs, pos, cs.length⟩ acc = _
    simp only [literalLoop]
    rw [StringStream.read_of_lt cs pos cs.length hlt, hget]
    simp only [if_pos rfl]
    rw [ih restExp restList (acc ++ [m]) cs (pos + 1) hrest]
    have harith : pos + 1 + ms.length = pos + (m :: ms).length := by
      simp only [List.length_cons]
      omega
    rw [harith]
    simp [List.append_assoc]

/-- The loop of `character` consumes exactly the next `n` elements when
    at least `n` remain, and otherwise runs the cursor to the end and
    aborts there. -/
theorem characterRead_spec :
    ∀ (n : Nat) (cs : List Char) (pos : Nat) (acc : List Char), pos ≤ cs.length →
      characterRead n ⟨cs, pos, cs.length⟩ acc =
        if pos + n ≤ cs.length then
          Except.ok (acc ++ (cs.drop pos).take n, ⟨cs, pos + n, cs.length⟩)
        else
          Except.error ⟨cs, cs.length, cs.length⟩ := by
  intro n
  induction n with
  | zero =>
    intro cs pos acc h
    simp [characterRead, h]
  | succ k ih =>
    intro cs pos acc h
    rcases Nat.lt_or_ge pos cs.length with hlt | hge
    · have hne : (⟨cs, pos, cs.length⟩ : StringStream).len ≠ 0 := by
        simp only [StringStream.len]
        omega
      have hget : cs.get? pos = some cs[pos] := by
        rw [List.get?_eq_getElem?, List.getElem?_eq_getElem hlt]
      simp only [characterRead, if_neg hne]
      rw [StringStream.read_of_lt cs pos cs.length hlt, hget]
      show characterRead k ⟨cs, pos + 1, cs.length⟩ (acc ++ [cs[pos]]) = _
      rw [ih cs (pos + 1) (acc ++ [cs[pos]]) (by omega)]
      by_cases hc : pos + 1 + k ≤ cs.length
      · rw [if_pos hc, if_pos (by omega)]
        have harith : pos + 1 + k = pos + (k + 1) := by omega
        rw [harith, List.drop_eq_getElem_cons hlt, List.take_succ_cons]
        simp [List.append_assoc]
      · rw [if_neg hc, if_neg (by omega)]
    · have heq : pos = cs.length := le_antisymm h hge
      subst heq
      have hz : (⟨cs, cs.length, cs.length⟩ : StringStream).len = 0 := by
        simp [StringStream.len]
      simp only [characterRead, if_pos hz]
      rw [if_neg (by omega)]

/-- C1: `choice(a, b)` performs full backtracking: when `a` fails — with
    an arbitrary failure stream, i.e. regardless of how many elements it
    consumed before failing — `b` is run starting from exactly the stream
    at which `a` started (with the failures aggregated should `b` fail
    too); in particular `run(choice(literal("ab"), literal("ac")), "ac")`
    succeeds with value `"ac"`, consuming the whole input, even though
    the first branch consumed one element before failing. -/
theorem choice_full_backtracking :
    (∀ (α ρ : Type) (b : Parser α ρ) (msg : String) (sFail s : StringStream)
       (k : ParseResult α → ρ),
      (choice (Parser.mk fun _ k' => k' (ParseResult.failure msg sFail)) b).function s k =
        b.function s (fun rb =>
          if rb.isFailure then k ((ParseResult.failure msg sFail).combine rb) else k rb)) ∧
    (choice (literal "ab") (literal "ac") : Parser String (ParseResult String)).run "ac" =
      ParseResult.success "ac" ⟨"ac".data, 2, 2⟩ :=
  ⟨fun _ _ _ _ _ _ _ => rfl, rfl⟩

/-- C3: once a stream is exhausted, reading is supposed to produce the
    distinguished end marker and never an error; however the
    `StringStream` produced by reading the single character of `"a"` is
    exhausted, and its `next()` raises `IndexError` (embedded as
    `Except.error`) because the source tests truthiness of the whole
    document instead of the remaining length — while the corresponding
    `CharacterStream` correctly yields the end marker. -/
theorem stringStream_next_error_after_exhaustion :
    ((StringStream.from_string "a").read.2).next = Except.error () ∧
    ((CharacterStream.from_string "a").read.2).next = none :=
  ⟨rfl, rfl⟩

/-- C4: for every string `s` (including the empty string), running
    `literal(s)` on the input `s` succeeds with value `s` and a remaining
    stream with zero remaining length (the cursor sits at the end). -/
theorem literal_parses_itself (s : String) :
    (literal s : Parser String (ParseResult String)).run s =
      ParseResult.success s ⟨s.data, s.length, s.length⟩ ∧
    (⟨s.data, s.length, s.length⟩ : StringStream).len = 0 := by
  constructor
  · have h := literalLoop_matched s s.data [] [] [] s.data 0 (by simp)
    simp only [List.append_nil, List.nil_append, Nat.zero_add] at h
    show literalLoop s s.data ⟨s.data, 0, s.data.length⟩ [] = _
    rw [h]
    rfl
  · simp [StringStream.len]

/-- C5: for every string with a non-empty part truncated away — the
    input `p` is a proper front segment of the expected string `p ++ q`
    with `q ≠ ""` — running `literal(p ++ q)` on `p` fails with the
    end-of-input message, and the failure's stream position is exactly
    `len(p)`. -/
theorem literal_truncated_input_fails_at_end (p q : String) (hq : q ≠ "") :
    (literal (p ++ q) : Parser String (ParseResult String)).run p =
      ParseResult.failure ("Expected `" ++ (p ++ q) ++ "` but found end of string")
        ⟨p.data, p.length, p.length⟩ := by
  have hdata : (p ++ q).data = p.data ++ q.data := String.data_append p q
  have h := literalLoop_matched (p ++ q) p.data q.data [] [] p.data 0 (by simp)
  simp only [List.nil_append, Nat.zero_add] at h
  show literalLoop (p ++ q) (p ++ q).data ⟨p.data, 0, p.data.length⟩ [] = _
  rw [hdata, h]
  obtain ⟨e, rest, hq'⟩ : ∃ e rest, q.data = e :: rest := by
    cases hqd : q.data with
    | nil =>
      exfalso
      apply hq
      cases q
      simp_all
    | cons e rest => exact ⟨e, rest, rfl⟩
  rw [hq']
  simp only [literalLoop]
  rw [StringStream.read_exhausted p.data p.data.length]
  rfl

/-- C5 witness: `literal("a" ++ "b")` on the proper front segment `"a"`
    fails with the end-of-input message positioned at 1. -/
theorem literal_truncated_input_fails_at_end_witness :
    (literal ("a" ++ "b") : Parser String (ParseResult String)).run "a" =
      ParseResult.failure ("Expected `" ++ ("a" ++ "b") ++ "` but found end of string")
        ⟨"a".data, "a".length, "a".length⟩ :=
  literal_truncated_input_fails_at_end "a" "b" (by decide)

/-- C6: for every `n ≥ 0`, `character(n)` on an input of length at least
    `n` succeeds with the first `n` characters concatenated as its value
    and the rest of the input as remainder (the returned stream's cursor
    is at `n`, so its `to_string` is the input with the first `n`
    characters dropped); on an input of length less than `n` it fails
    with the unexpected-end-of-input message, the failure stream sitting
    at the end of the input where exhaustion was detected. -/
theorem character_reads_exactly_n (input : String) (n : Nat) :
    (n ≤ input.length →
      (character n : Parser String (ParseResult String)).run input =
        ParseResult.success (String.mk (input.data.take n)) ⟨input.data, n, input.length⟩) ∧
    (input.length < n →
      (character n : Parser String (ParseResult String)).run input =
        ParseResult.failure "Expected character but found end of string"
          ⟨input.data, input.length, input.length⟩) ∧
    (⟨input.data, n, input.length⟩ : StringStream).to_string =
      String.mk (input.data.drop n) := by
  have hlen : input.data.length = input.length := rfl
  have h := characterRead_spec n input.data 0 [] (by omega)
  simp only [List.nil_append, Nat.zero_add, List.drop_zero] at h
  refine ⟨?_, ?_, rfl⟩
  · intro hle
    show (match characterRead n ⟨input.data, 0, input.data.length⟩ [] with
          | Except.ok (chars, s') => ParseResult.success (String.mk chars) s'
          | Except.error s' =>
            ParseResult.failure "Expected character but found end of string" s') = _
    rw [h, if_pos (by rw [hlen]; exact hle)]
    rfl
  · intro hlt
    show (match characterRead n ⟨input.data, 0, input.data.length⟩ [] with
          | Except.ok (chars, s') => ParseResult.success (String.mk chars) s'
          | Except.error s' =>
            ParseResult.failure "Expected character but found end of string" s') = _
    rw [h, if_neg (by rw [hlen]; omega)]
    rfl

/-- C6 witness: `character(1)` on `"ab"` succeeds with `"a"` leaving
    `"b"`, and `character(2)` on `"a"` fails with the end-of-input
    message at the end of the input. -/
theorem character_reads_exactly_n_witness :
    (character 1 : Parser String (ParseResult String)).run "ab" =
      ParseResult.success (String.mk ("ab".data.take 1)) ⟨"ab".data, 1, "ab".length⟩ ∧
    (character 2 : Parser String (ParseResult String)).run "a" =
      ParseResult.failure "Expected character but found end of string"
        ⟨"a".data, "a".length, "a".length⟩ :=
  ⟨(character_reads_exactly_n "ab" 1).1 (by decide),
   (character_reads_exactly_n "a" 2).2.1 (by decide)⟩

/-- C7: the functor/monad laws hold as behavioural equalities on every
    stream and continuation: `fmap f (unit v)` behaves as `unit (f v)`,
    `bind (unit v) f` behaves as `f v`, and `bind (bind p f) g` behaves
    as `bind p (fun v => bind (f v) g)`. -/
theorem monad_and_functor_laws :
    (∀ (α β ρ : Type) (v : α) (f : α → β) (s : StringStream) (k : ParseResult β → ρ),
      (fmap f (unit v)).function s k = (unit (f v)).function s k) ∧
    (∀ (α β ρ : Type) (v : α) (f : α → Parser β ρ) (s : StringStream)
       (k : ParseResult β → ρ),
      ((unit v).bind f).function s k = (f v).function s k) ∧
    (∀ (α β γ ρ : Type) (p : Parser α ρ) (f : α → Parser β ρ) (g : β → Parser γ ρ)
       (s : StringStream) (k : ParseResult γ → ρ),
      ((p.bind f).bind g).function s k = (p.bind fun v => (f v).bind g).function s k) := by
  refine ⟨fun _ _ _ _ _ _ _ => rfl, fun _ _ _ _ _ _ _ => rfl, ?_⟩
  intro α β γ ρ p f g s k
  show p.function s _ = p.function s _
  refine congrArg (p.function s) (funext fun r => ?_)
  cases r <;> rfl

/-- C8: `try_parser(p)` behaves exactly like `p` on success, and on
    failure it reports the failure with every recorded stream rewound to
    the stream before `p` ran; consequently a failing branch appears to
    have consumed no input: on `"ac"`, plain `literal("ab")` fails with
    its cursor at 1 while the wrapped parser fails with its cursor back
    at 0. -/
theorem tryParser_rewinds_failures :
    (∀ (α ρ : Type) (p : Parser α ρ) (s : StringStream) (k : ParseResult α → ρ),
      (tryParser p).function s k = p.function s fun result =>
        match result with
        | ParseResult.success v s' => k (ParseResult.success v s')
        | ParseResult.failure m _ => k (ParseResult.failure m s)
        | ParseResult.failures fs =>
          k (ParseResult.failures (fs.map fun pr => (pr.1, s)))) ∧
    (tryParser (literal "ab") : Parser String (ParseResult String)).run "ac" =
      ParseResult.failure "Expected ab but found ac." ⟨"ac".data, 0, 2⟩ ∧
    (literal "ab" : Parser String (ParseResult String)).run "ac" =
      ParseResult.failure "Expected ab but found ac." ⟨"ac".data, 1, 2⟩ := by
  refine ⟨?_, rfl, rfl⟩
  intro α ρ p s k
  show p.function s _ = p.function s _
  refine congrArg (p.function s) (funext fun r => ?_)
  cases r <;> rfl

/-- C9: when every alternative of a `choice` fails, the failure
    aggregates the branch messages in the order they were attempted, the
    first branch's message first, and the rendered error joins them with
    `"OR"`: on any input, `choice(fail("X"), fail("Y"))` produces the
    failure list `X` then `Y`, rendered as `"X OR Y"`. -/
theorem choice_aggregates_failure_messages (input : String) :
    (choice (fail "X") (fail "Y") : Parser String (ParseResult String)).run input =
      ParseResult.failures
        [("X", StringStream.from_string input), ("Y", StringStream.from_string input)] ∧
    renderFailureMessages
        [("X", StringStream.from_string input), ("Y", StringStream.from_string input)] =
      "X OR Y" :=
  ⟨rfl, rfl⟩

/-- C10: reading an exhausted `StringStream` (remaining length 0) yields
    the end marker together with the very same stream value; moreover a
    read never drives a non-negative remaining length negative, and a
    read never alters the document or the stored length of the stream
    value it produces — `read` copies, it does not mutate. -/
theorem stringStream_read_never_corrupts :
    (∀ s : StringStream, s.len = 0 → s.read = (none, s)) ∧
    (∀ s : StringStream, 0 ≤ s.len → 0 ≤ (s.read.2).len) ∧
    (∀ s : StringStream, (s.read.2).content = s.content ∧ (s.read.2).length = s.length) := by
  refine ⟨?_, ?_, ?_⟩
  · intro s h
    simp [StringStream.read, h]
  · intro s h
    by_cases hz : s.len = 0
    · simp [StringStream.read, hz, h]
    · have hpos : (s.read).2 = { s with position := s.position + 1 } := by
        simp [StringStream.read, hz]
      rw [hpos]
      simp only [StringStream.len] at hz h ⊢
      omega
  · intro s
    by_cases hz : s.len = 0
    · simp [StringStream.read, hz]
    · simp [StringStream.read, hz]

/-- C10 witness: the exhausted stream over `"a"` reads as the end marker
    and itself, and a read from the fresh stream over `"a"` keeps the
    remaining length non-negative. -/
theorem stringStream_read_never_corrupts_witness :
    StringStream.read ⟨['a'], 1, 1⟩ = (none, ⟨['a'], 1, 1⟩) ∧
    0 ≤ ((StringStream.read ⟨['a'], 0, 1⟩).2).len :=
  ⟨stringStream_read_never_corrupts.1 ⟨['a'], 1, 1⟩ (by decide),
   stringStream_read_never_corrupts.2.1 ⟨['a'], 0, 1⟩ (by decide)⟩

end Parsemon
